import Mathlib

/-!
Verification of `leaonline:publication-factory` (`publication-factory.js`).

Shallow embedding: the factory's construction pipeline (argument checks,
mixin fold, error-handler / connection / validator resolution, duplicate
guard, registration) and the runtime publication wrapper are translated to
executable Lean definitions.  JavaScript's dynamic values are modelled by a
small value universe `JsValue`; thrown exceptions by `Except JsError`;
the mutable per-connection `server.publish_handlers` tables by an explicit
`World` state threaded through construction.  Calls of the externally
supplied `schemaFactory` are recorded in an effect log so that claims about
"invoked exactly once / never invoked" are real theorems.
-/

namespace PublicationFactory

/-- A JavaScript runtime value, restricted to the shapes the library
inspects: truthiness and `value.constructor.name` (used by the
`isMaybeMongoCursor` duck test, line 5 of the source).  Objects carry their
constructor's name (e.g. "Cursor", "Array", "Object") and an identity. -/
inductive JsValue where
  | vUndefined
  | vNull
  | vBool (b : Bool)
  | vNum (n : Int)
  | vStr (s : String)
  | vObj (ctor : String) (id : Nat)
deriving DecidableEq

/-- JavaScript truthiness. -/
def truthy : JsValue → Bool
  | .vUndefined => false
  | .vNull => false
  | .vBool b => b
  | .vNum n => n != 0
  | .vStr s => s != ""
  | .vObj _ _ => true

/-- `v.constructor.name`; `none` for `undefined`/`null` (where the access
would itself throw — the source only evaluates it behind `!c ||`). -/
def constructorName : JsValue → Option String
  | .vUndefined => none
  | .vNull => none
  | .vBool _ => some "Boolean"
  | .vNum _ => some "Number"
  | .vStr _ => some "String"
  | .vObj c _ => some c

/-- Line 5: `Match.Where(c => !c || c.constructor.name === 'Cursor')`. -/
def isMaybeMongoCursor (v : JsValue) : Bool :=
  !truthy v || constructorName v == some "Cursor"

/-- A thrown JavaScript error, reduced to its message. -/
structure JsError where
  message : String
deriving DecidableEq

/-- The `Match.Error` raised by `check(cursor, isMaybeMongoCursor)` on
line 65 when the produced value fails the cursor duck test. -/
def cursorMatchError : JsError :=
  { message := "Match error: Failed Match.Where validation" }

/-- An error-transform (`onError`) function: maps a caught failure to a
replacement or to a falsy value (`none`), meaning "use the original". -/
def ErrH : Type := JsError → Option JsError

/-- Line 6: `const defaultErrorHandler = e => e` (the identity transform;
its result, being the error object itself, is always truthy). -/
def defaultErrorHandler : ErrH := fun e => some e

/-- Line 30: `onError || abstractFactoryLevelOnError || defaultErrorHandler`.
Endpoint-level `onError` first, then the abstract factory's, then the
identity default (functions are truthy, absence is falsy). -/
def resolveErrorHandler (endpointOnError abstractOnError : Option ErrH) : ErrH :=
  match endpointOnError with
  | some h => h
  | none =>
    match abstractOnError with
    | some h => h
    | none => defaultErrorHandler

/-- An explicit `validate` override: invoked as `validateFn(...args)` with
the full call-argument list; throwing models rejection. -/
def Validator : Type := List JsValue → Except JsError Unit

/-- The producing function `run`: invoked with the call arguments (its
`this`-context `self` is only used by caller code, not inspected by the
factory, and is omitted from the model). -/
def RunFn : Type := List JsValue → Except JsError JsValue

/-- An opaque schema description (passed verbatim to `schemaFactory`). -/
structure Schema where
  id : Nat
deriving DecidableEq

/-- The object a `schemaFactory` returns: exposes `validate(document)`. -/
structure SchemaObj where
  validate : JsValue → Except JsError Unit

/-- The abstract factory's schema-construction strategy.  It receives the
endpoint spec's `schema` binding verbatim (which is `undefined` — `none` —
only if absent, a case the shape check rules out). -/
def SchemaFactory : Type := Option Schema → SchemaObj

/-- Lines 47-49: the synthesized validator's parameter `document = {}` —
the first call argument, defaulting to a plain empty object when missing
or `undefined`; further arguments are ignored. -/
def docArg (args : List JsValue) : JsValue :=
  match args.head? with
  | none => .vObj "Object" 0
  | some .vUndefined => .vObj "Object" 0
  | some v => v

/-- The validator resolved at construction time (lines 42-50): the explicit
`options.validate` override, a wrapper around the object built by one
`schemaFactory(schema)` call, or the no-op `() => {}`. -/
inductive ResolvedValidator where
  | explicitFn (v : Validator)
  | fromSchema (so : SchemaObj)
  | noop

/-- Per-call behaviour of the resolved validator:
`validateFn(...args)` for the override, lines 47-49
(`validationSchema.validate(document)`) for the schema wrapper, and
accept-anything for the no-op. -/
def ResolvedValidator.call : ResolvedValidator → List JsValue → Except JsError Unit
  | .explicitFn v, args => v args
  | .fromSchema so, args => so.validate (docArg args)
  | .noop, _ => .ok ()

/-- Lines 42-50.  Returns the resolved validator together with the log of
`schemaFactory` invocations this resolution performs (arguments in call
order): exactly one call, with the spec's `schema`, on the synthesis path;
none otherwise. -/
def resolveValidator (optionsValidate : Option Validator)
    (schemaFactory : Option SchemaFactory) (schema : Option Schema) :
    ResolvedValidator × List (Option Schema) :=
  match optionsValidate with
  | some v => (.explicitFn v, [])
  | none =>
    match schemaFactory with
    | some sf => (.fromSchema (sf schema), [schema])
    | none => (.noop, [])

/-- Observable outcome of one publication-handler call: the cursor returned
unchanged to the registry, or `self.ready()` signalled (no data), or
`self.error(e)` signalled with the delivered failure. -/
inductive CallResult where
  | returnedCursor (v : JsValue)
  | readySignaled
  | errorSignaled (e : JsError)
deriving DecidableEq

/-- Lines 57-74, the runtime `publication` wrapper.  The `try` body runs
`validateFn(...args)`, then `options.run.apply(self, args)`, then
`check(cursor, isMaybeMongoCursor)`, then `return cursor || self.ready()`.
Every throw from any of those steps lands in the single `catch`, which
delivers `errorHandler.call(null, e) || e` via `self.error(...)`; the
function is total — nothing is re-thrown past this boundary. -/
def runPublication (validateFn : List JsValue → Except JsError Unit)
    (run : RunFn) (errorHandler : ErrH) (args : List JsValue) : CallResult :=
  match validateFn args with
  | .error e => .errorSignaled ((errorHandler e).getD e)
  | .ok _ =>
    match run args with
    | .error e => .errorSignaled ((errorHandler e).getD e)
    | .ok cursor =>
      if isMaybeMongoCursor cursor then
        if truthy cursor then .returnedCursor cursor else .readySignaled
      else
        .errorSignaled ((errorHandler cursorMatchError).getD cursorMatchError)

/-- The handler closed over the resolved validator, producing function and
error transform (the closure built on lines 57-74). -/
def mkHandler (rv : ResolvedValidator) (run : RunFn) (errorHandler : ErrH) :
    List JsValue → CallResult :=
  fun args => runPublication rv.call run errorHandler args

/-- A connection handle (the hosting registry), identified by reference:
`!==` on connections is identity comparison, modelled on `Nat` ids. -/
abbrev Conn : Type := Nat

/-- The global `Meteor` object, the default value of both `connection`
parameters (lines 8 and 17). -/
def Meteor : Conn := 0

/-- The merged options mapping mixins transform (the `allArgs`/`options`
object, lines 28-29): the fields the factory itself reads — `name`,
`validate`, `run`, `connection` — plus the opaque extra fields
(`...factoryArgs`) consumed only by mixins.  The source also stores the
concatenated `mixins: localMixins` list in this object; a mixin-list field
inside the very type mixins consume is not strictly positive in Lean, and
no code path reads it back, so it is omitted here. -/
structure Options where
  name : String
  validate : Option Validator
  run : RunFn
  connection : Conn
  extra : List (String × JsValue)

/-- A mixin's return value, split by the `Match.test(args, Object)` guard
of line 90: `mapping` covers exactly the plain key-value mappings (which
the pipeline continues with), `notMapping` all other values — `undefined`,
primitives, arrays, class instances. -/
inductive MixinOut where
  | mapping (o : Options)
  | notMapping (v : JsValue)

/-- A mixin: the transformation itself plus the name the source derives
from its text via `mixin.toString().match(/function\s(\w+)/)` (line 91) —
`some` for a named `function`, `none` when the regex fails (arrow
functions, anonymous functions). -/
structure Mixin where
  f : Options → MixinOut
  derivedName : Option String

/-- The apostrophe character, used in the mixin-violation message. -/
def apos : String := String.singleton (Char.ofNat 39)

/-- Lines 91-98: the construction-abort message — names the mixin when its
function name is derivable, is generic otherwise, and always carries the
endpoint name captured at the start of the fold. -/
def mixinErrMsg (endpointName : String) (derivedName : Option String) : String :=
  let who := match derivedName with
    | some fn => "The function " ++ apos ++ fn ++ apos
    | none => "One of the mixins"
  "Error in " ++ endpointName ++ " publication: " ++ who ++
    " didn" ++ apos ++ "t return the options object."

/-- A construction-time failure (an exception thrown by the endpoint
factory before it returns): a failed argument `check` (carrying which
check), the mixin-contract violation of line 98, the duplicate-name error
of line 39 (carrying the name), or the post-registration self-check of
line 78. -/
inductive ConstructErr where
  | checkFailure (which : String)
  | mixinViolation (msg : String)
  | duplicatePublication (name : String)
  | registrationFailed
deriving DecidableEq

/-- The loop body of `applyMixins` (lines 87-100): fold the mixins left to
right, each mixin's returned mapping becoming the next input; abort with
the violation message — built from the `name` captured before the loop —
at the first non-mapping return. -/
def applyMixinsGo (endpointName : String) : Options → List Mixin →
    Except ConstructErr Options
  | args, [] => .ok args
  | args, m :: rest =>
    match m.f args with
    | .mapping next => applyMixinsGo endpointName next rest
    | .notMapping _ =>
      .error (.mixinViolation (mixinErrMsg endpointName m.derivedName))

/-- Lines 83-103: `applyMixins(args, mixins)`, capturing `args.name` first. -/
def applyMixins (args : Options) (mixins : List Mixin) :
    Except ConstructErr Options :=
  applyMixinsGo args.name args mixins

/-- The per-endpoint specification (the argument object of line 17), after
the `check` calls of lines 18-24 have typed its fields: `validate` and
`onError` are optional functions, `mixins` a list of functions,
`connection` optional (absent means the default parameter `Meteor`),
`extra` the rest parameter `...factoryArgs` (whose keys are disjoint from
the destructured ones by construction). -/
structure PubSpec where
  name : String
  schema : Option Schema
  validate : Option Validator
  run : RunFn
  mixins : List Mixin
  onError : Option ErrH
  connection : Option Conn
  extra : List (String × JsValue)

/-- The abstract factory's closed-over configuration (lines 8-15), with
line 8's defaults already applied: `connection` defaults to `Meteor`,
`mixins` to `[]` (`mixins || []`). -/
structure AbstractFactoryConfig where
  schemaFactory : Option SchemaFactory
  mixins : List Mixin
  onError : Option ErrH
  connection : Conn

/-- Line 28: `Object.assign({}, { name, validate, run, mixins: localMixins,
connection }, factoryArgs)` — the initial merged options, before any mixin
runs.  `schema` and `onError` are destructured away on line 17 and are not
part of this mapping. -/
def initialOptions (spec : PubSpec) : Options :=
  { name := spec.name
    validate := spec.validate
    run := spec.run
    connection := spec.connection.getD Meteor
    extra := spec.extra }

/-- Lines 33-35: `options.connection !== Meteor ? options.connection :
abstractFactoryLevelConnection`.  The comparison is against the global
`Meteor` sentinel, not against the abstract factory's own default. -/
def resolveConnection (optionsConnection cfgConnection : Conn) : Conn :=
  if optionsConnection ≠ Meteor then optionsConnection else cfgConnection

/-- Each connection's `server.publish_handlers` table: registered names
mapped to handler identities. -/
abbrev RegistryTable : Type := List (String × Nat)

/-- The registry state of every connection (unlisted connections have an
empty table). -/
abbrev World : Type := List (Conn × RegistryTable)

/-- Read a connection's handler table. -/
def getW (w : World) (c : Conn) : RegistryTable :=
  (List.lookup c w).getD []

/-- Replace a connection's handler table (models the mutation performed by
`connection.publish`). -/
def setW : World → Conn → RegistryTable → World
  | [], c, t => [(c, t)]
  | (c', t') :: rest, c, t =>
    if c' = c then (c, t) :: rest else (c', t') :: setW rest c t

/-- What a successful endpoint construction returns and closes over: the
resolved target connection, the registered handler's identity, the
resolved validator and error transform, the post-mixin options, and the
runtime handler itself. -/
structure ConstructOk where
  target : Conn
  handlerId : Nat
  validator : ResolvedValidator
  errorHandler : ErrH
  options : Options
  handler : List JsValue → CallResult

/-- Observable construction effects: the registry world after construction
(unchanged on every failure path, the code throws before `publish`), and
the log of `schemaFactory` invocations. -/
structure ConstructEffects where
  world : World
  sfCalls : List (Option Schema)
deriving DecidableEq

/-- The outcome record built on the success path (lines 57-79). -/
def constructOutcome (cfg : AbstractFactoryConfig) (spec : PubSpec)
    (freshId : Nat) (opts : Options) : ConstructOk :=
  { target := resolveConnection opts.connection cfg.connection
    handlerId := freshId
    validator := (resolveValidator opts.validate cfg.schemaFactory spec.schema).1
    errorHandler := resolveErrorHandler spec.onError cfg.onError
    options := opts
    handler := mkHandler (resolveValidator opts.validate cfg.schemaFactory spec.schema).1
      opts.run (resolveErrorHandler spec.onError cfg.onError) }

/-- Lines 17-79: one call of the endpoint factory.  In source order:
the argument checks (of which only the schema-presence check — line 19
against `isRequiredSchema = schemaFactory ? Object : Match.Maybe(Object)`,
line 15 — is fallible in this typed model); the mixin fold over the
initial merged options with `localMixins = [].concat(mixins,
abstractFactoryLevelMixins)` (lines 27-29); error-handler and connection
resolution (lines 30-35); the duplicate-name guard (lines 38-40); validator
resolution (lines 42-50, where `schemaFactory` may be invoked); handler
construction; `publish` plus the post-registration self-check (lines
77-78).  `freshId` is the identity of the newly built handler closure. -/
def construct (cfg : AbstractFactoryConfig) (spec : PubSpec) (w : World)
    (freshId : Nat) : Except ConstructErr ConstructOk × ConstructEffects :=
  if cfg.schemaFactory.isSome && spec.schema.isNone then
    (.error (.checkFailure "schema"), ⟨w, []⟩)
  else
    match applyMixins (initialOptions spec) (spec.mixins ++ cfg.mixins) with
    | .error e => (.error e, ⟨w, []⟩)
    | .ok opts =>
      let target := resolveConnection opts.connection cfg.connection
      if (List.lookup opts.name (getW w target)).isSome then
        (.error (.duplicatePublication opts.name), ⟨w, []⟩)
      else
        let rv := resolveValidator opts.validate cfg.schemaFactory spec.schema
        let w2 := setW w target (getW w target ++ [(opts.name, freshId)])
        if (List.lookup opts.name (getW w2 target)).isSome then
          (.ok (constructOutcome cfg spec freshId opts), ⟨w2, rv.2⟩)
        else
          (.error .registrationFailed, ⟨w2, rv.2⟩)

/-- The construction error, if any (projection used to state claims). -/
def constructErrOf (r : Except ConstructErr ConstructOk × ConstructEffects) :
    Option ConstructErr :=
  match r.1 with
  | .error e => some e
  | .ok _ => none

/-- The connection a successful construction registered with. -/
def constructTargetOf (r : Except ConstructErr ConstructOk × ConstructEffects) :
    Option Conn :=
  match r.1 with
  | .ok ok => some ok.target
  | .error _ => none

/-- The final merged options of a successful construction. -/
def constructOptionsOf (r : Except ConstructErr ConstructOk × ConstructEffects) :
    Option Options :=
  match r.1 with
  | .ok ok => some ok.options
  | .error _ => none

/-- The validator a successful construction resolved. -/
def constructValidatorOf (r : Except ConstructErr ConstructOk × ConstructEffects) :
    Option ResolvedValidator :=
  match r.1 with
  | .ok ok => some ok.validator
  | .error _ => none

/-! Concrete instances used to evaluate the development on closed inputs. -/

/-- A producing function returning `undefined`. -/
def runNoop : RunFn := fun _ => Except.ok .vUndefined

/-- A trivial explicit `validate` override. -/
def valNoop : Validator := fun _ => Except.ok ()

/-- A schema factory whose produced object accepts every document. -/
def sfTrivial : SchemaFactory := fun _ => { validate := fun _ => Except.ok () }

/-- A well-behaved anonymous mixin that records its tag in the options'
extra fields (so that application order is observable). -/
def tagMixin (k : String) : Mixin :=
  { f := fun o => .mapping { o with extra := o.extra ++ [(k, .vNum 1)] }
    derivedName := none }

/-- An anonymous arrow-function mixin `() => {}` returning `undefined`
(its body never returns the options object). -/
def badMixin : Mixin :=
  { f := fun _ => .notMapping .vUndefined
    derivedName := none }

/-- Abstract factory with all defaults (`createPublicationFactory()`). -/
def cfgDefault : AbstractFactoryConfig :=
  { schemaFactory := none, mixins := [], onError := none, connection := Meteor }

/-- Abstract factory configured with a schema factory. -/
def cfgSF : AbstractFactoryConfig :=
  { schemaFactory := some sfTrivial, mixins := [], onError := none
    connection := Meteor }

/-- A minimal endpoint spec: name `"a"`, no schema, no override, no mixins. -/
def specMin : PubSpec :=
  { name := "a", schema := none, validate := none, run := runNoop
    mixins := [], onError := none, connection := none, extra := [] }

/-- Endpoint spec for the C4 witness: endpoint-level mixins `[a, b]`. -/
def specC4 : PubSpec :=
  { specMin with name := "p", mixins := [tagMixin "a", tagMixin "b"] }

/-- Abstract factory for the C4 witness: abstract-level mixins `[c, d]`. -/
def cfgC4 : AbstractFactoryConfig :=
  { cfgDefault with mixins := [tagMixin "c", tagMixin "d"] }

/-- The options after the tag mixins of `ks` have run on `specC4`. -/
def oC4 (ks : List String) : Options :=
  { name := "p", validate := none, run := runNoop, connection := Meteor
    extra := ks.map (fun k => (k, JsValue.vNum 1)) }

/-- Endpoint spec whose single (endpoint-level) mixin is `badMixin`. -/
def specC8 : PubSpec := { specMin with name := "p", mixins := [badMixin] }

/-- Endpoint spec with a schema and no `validate` override. -/
def specSchema : PubSpec := { specMin with name := "p", schema := some ⟨1⟩ }

/-- Endpoint spec with a schema absent but a `validate` override given. -/
def specC6 : PubSpec := { specMin with validate := some valNoop }

/-- A mixin that returns the options mapping with the `validate` field
removed (`({ validate, ...rest }) => rest`): its return value is a plain
mapping, so it passes line 90's `Match.test(args, Object)` guard. -/
def stripValidateMixin : Mixin :=
  { f := fun o => .mapping { o with validate := none }
    derivedName := none }

/-- Endpoint spec supplying both a `validate` override and a schema, whose
single mixin is `stripValidateMixin`. -/
def specC5x : PubSpec :=
  { specMin with
    name := "p"
    schema := some ⟨5⟩
    validate := some valNoop
    mixins := [stripValidateMixin] }

/-- Abstract factory whose default connection is the non-`Meteor`
connection `2`. -/
def cfgC7 : AbstractFactoryConfig := { cfgDefault with connection := 2 }

/-- Endpoint spec with connection override `3`. -/
def specC7 : PubSpec := { specMin with connection := some 3 }

/-- Abstract factory whose default connection is the non-`Meteor`
connection `1`. -/
def cfgR1 : AbstractFactoryConfig := { cfgDefault with connection := 1 }

/-- Endpoint spec whose connection override is the global `Meteor`
itself — explicitly supplied, and distinct from `cfgR1`'s default. -/
def specMeteorOverride : PubSpec := { specMin with connection := some Meteor }

/-! Helper lemmas about the registry world and the mixin fold. -/

theorem getW_setW (w : World) (c : Conn) (t : RegistryTable) :
    getW (setW w c t) c = t := by
  induction w with
  | nil => simp [getW, setW, List.lookup]
  | cons p rest ih =>
    obtain ⟨c', t'⟩ := p
    by_cases h : c' = c
    · subst h
      simp [setW, getW, List.lookup]
    · simp only [setW, if_neg h, getW, List.lookup]
      have hb : (c == c') = false := by
        simp [Ne.symm h]
      rw [hb]
      exact ih

theorem lookup_append_self (k : String) (l : RegistryTable) (v : Nat)
    (h : List.lookup k l = none) : List.lookup k (l ++ [(k, v)]) = some v := by
  induction l with
  | nil => simp [List.lookup]
  | cons p rest ih =>
    obtain ⟨k', v'⟩ := p
    by_cases hk : (k == k') = true
    · simp [List.lookup, hk] at h
    · rw [Bool.not_eq_true] at hk
      simp only [List.cons_append, List.lookup, hk] at h ⊢
      exact ih h

theorem construct_success_eq (cfg : AbstractFactoryConfig) (spec : PubSpec)
    (w : World) (fid : Nat) (opts : Options)
    (hs : (cfg.schemaFactory.isSome && spec.schema.isNone) = false)
    (hm : applyMixins (initialOptions spec) (spec.mixins ++ cfg.mixins) = .ok opts)
    (hdup : List.lookup opts.name
      (getW w (resolveConnection opts.connection cfg.connection)) = none) :
    construct cfg spec w fid =
      (.ok (constructOutcome cfg spec fid opts),
       ⟨setW w (resolveConnection opts.connection cfg.connection)
          (getW w (resolveConnection opts.connection cfg.connection) ++
            [(opts.name, fid)]),
        (resolveValidator opts.validate cfg.schemaFactory spec.schema).2⟩) := by
  unfold construct
  rw [hs, hm]
  simp only [Bool.false_eq_true, if_false, hdup, Option.isSome_none]
  rw [getW_setW, lookup_append_self _ _ _ hdup]
  simp

theorem applyMixinsGo_ne_check (n : String) (ms : List Mixin) (o : Options)
    (s : String) : applyMixinsGo n o ms ≠ .error (.checkFailure s) := by
  induction ms generalizing o with
  | nil => simp [applyMixinsGo]
  | cons m rest ih =>
    simp only [applyMixinsGo]
    cases hm : m.f o with
    | mapping next => exact ih next
    | notMapping v => simp

theorem applyMixinsGo_abort (n : String) (pre : List Mixin) (m : Mixin)
    (post : List Mixin) (o mid : Options) (v : JsValue)
    (hpre : applyMixinsGo n o pre = .ok mid) (hm : m.f mid = .notMapping v) :
    applyMixinsGo n o (pre ++ m :: post) =
      .error (.mixinViolation (mixinErrMsg n m.derivedName)) := by
  induction pre generalizing o with
  | nil =>
    simp only [applyMixinsGo] at hpre
    cases hpre
    simp [applyMixinsGo, hm]
  | cons p rest ih =>
    rw [List.cons_append]
    simp only [applyMixinsGo] at hpre ⊢
    cases hp : p.f o with
    | mapping next =>
      rw [hp] at hpre
      exact ih next hpre
    | notMapping v' =>
      rw [hp] at hpre
      simp at hpre

/-! Claim theorems. -/

/-- C1: for every constructed handler and every call, a failure raised
during validation or during the producing function's invocation is caught
at the handler boundary and never re-thrown (`runPublication` is total and
answers with a `self.error` delivery, the `errorSignaled` outcome); the
caught failure is passed to the resolved error transform — endpoint
`onError` first, else the abstract factory's, else the identity default —
and the delivered failure is the transform's replacement when that is
truthy (`some`), else the original failure (`(errorHandler e).getD e`). -/
theorem pub_error_containment
    (validateFn : List JsValue → Except JsError Unit) (run : RunFn)
    (endpointOnError abstractOnError : Option ErrH) (args : List JsValue)
    (e : JsError)
    (h : validateFn args = .error e ∨
      (validateFn args = .ok () ∧ run args = .error e)) :
    runPublication validateFn run
        (resolveErrorHandler endpointOnError abstractOnError) args =
      .errorSignaled
        ((resolveErrorHandler endpointOnError abstractOnError e).getD e) ∧
    (∀ h' : ErrH, resolveErrorHandler (some h') abstractOnError = h') ∧
    (∀ h' : ErrH, resolveErrorHandler none (some h') = h') ∧
    resolveErrorHandler none none = defaultErrorHandler ∧
    defaultErrorHandler e = some e := by
  refine ⟨?_, fun _ => rfl, fun _ => rfl, rfl, rfl⟩
  rcases h with h1 | ⟨h1, h2⟩
  · simp [runPublication, h1]
  · simp [runPublication, h1, h2]

/-- Witness for C1: a producing function throwing `boom` under the default
(identity) transform yields `self.error` receiving `boom`. -/
theorem pub_error_containment_witness :
    runPublication (fun _ => Except.ok ())
        (fun _ => Except.error { message := "boom" })
        (resolveErrorHandler none none) [] =
      .errorSignaled
        ((resolveErrorHandler none none { message := "boom" }).getD
          { message := "boom" }) :=
  (pub_error_containment _ _ none none [] { message := "boom" }
    (Or.inr ⟨rfl, rfl⟩)).1

/-- C2: when validation passes, a call where `run` returns nothing results
in `self.ready()` and no data delivery; where `run` returns a Mongo
`Cursor`, that exact value is returned unchanged; where `run` returns an
unsupported value such as a plain array, the result-contract violation
(the failed cursor `check`) is contained and delivered via `self.error`
instead of being returned or thrown. -/
theorem pub_result_adaptation
    (validateFn : List JsValue → Except JsError Unit) (run : RunFn)
    (eH : ErrH) (args : List JsValue)
    (hv : validateFn args = .ok ()) :
    (run args = .ok .vUndefined →
      runPublication validateFn run eH args = .readySignaled) ∧
    (∀ n, run args = .ok (.vObj "Cursor" n) →
      runPublication validateFn run eH args = .returnedCursor (.vObj "Cursor" n)) ∧
    (∀ n, run args = .ok (.vObj "Array" n) →
      runPublication validateFn run eH args =
        .errorSignaled ((eH cursorMatchError).getD cursorMatchError)) := by
  refine ⟨fun h => ?_, fun n h => ?_, fun n h => ?_⟩ <;>
    simp [runPublication, hv, h, isMaybeMongoCursor, truthy, constructorName]

/-- Witness for C2: `run` returning nothing makes the handler signal
`self.ready()`. -/
theorem pub_result_adaptation_witness :
    runPublication (fun _ => Except.ok ()) runNoop defaultErrorHandler [] =
      .readySignaled :=
  (pub_result_adaptation (fun _ => Except.ok ()) runNoop
    defaultErrorHandler [] rfl).1 rfl

/-- C10: the result-shape check treats every falsy return of the producing
function as absent — `self.ready()` is called, no violation raised — and
exactly the truthy values whose constructor is not `Cursor` are treated as
result-contract violations (truthy cursors are returned unchanged).  The
final conjunct enumerates the falsy values the claim lists. -/
theorem falsy_result_ready
    (validateFn : List JsValue → Except JsError Unit) (run : RunFn)
    (eH : ErrH) (args : List JsValue) (v : JsValue)
    (hv : validateFn args = .ok ()) (hr : run args = .ok v) :
    (truthy v = false →
      runPublication validateFn run eH args = .readySignaled) ∧
    (truthy v = true → constructorName v ≠ some "Cursor" →
      runPublication validateFn run eH args =
        .errorSignaled ((eH cursorMatchError).getD cursorMatchError)) ∧
    (truthy v = true → constructorName v = some "Cursor" →
      runPublication validateFn run eH args = .returnedCursor v) ∧
    (truthy .vUndefined = false ∧ truthy .vNull = false ∧
      truthy (.vBool false) = false ∧ truthy (.vNum 0) = false ∧
      truthy (.vStr "") = false) := by
  refine ⟨fun ht => ?_, fun ht hc => ?_, fun ht hc => ?_, by decide⟩
  · simp [runPublication, hv, hr, isMaybeMongoCursor, ht]
  · have hb : (constructorName v == some "Cursor") = false := by
      simp [hc]
    simp [runPublication, hv, hr, isMaybeMongoCursor, ht, hb]
  · have hb : (constructorName v == some "Cursor") = true := by
      simp [hc]
    simp [runPublication, hv, hr, isMaybeMongoCursor, ht, hb]

/-- Witness for C10: the falsy value `0` returned by `run` yields
`self.ready()`, not a contract violation. -/
theorem falsy_result_ready_witness :
    runPublication (fun _ => Except.ok ()) (fun _ => Except.ok (.vNum 0))
      defaultErrorHandler [] = .readySignaled :=
  (falsy_result_ready (fun _ => Except.ok ()) (fun _ => Except.ok (.vNum 0))
    defaultErrorHandler [] (.vNum 0) rfl rfl).1 (by decide)

/-- C4: with endpoint-level mixins `[a, b]` and abstract-factory-level
mixins `[c, d]`, the concatenated pipeline is exactly `[a, b, c, d]`
(endpoint level first, then abstract level, nothing dropped), and the fold
over the initial merged options applies them in that order, each mixin's
returned mapping becoming the input of the next — so the fold's result is
`d` applied to `c` applied to `b` applied to `a` applied to the initial
options. -/
theorem mixin_fold_order
    (spec : PubSpec) (cfg : AbstractFactoryConfig) (a b c d : Mixin)
    (o1 o2 o3 o4 : Options)
    (hspec : spec.mixins = [a, b]) (hcfg : cfg.mixins = [c, d])
    (ha : a.f (initialOptions spec) = .mapping o1)
    (hb : b.f o1 = .mapping o2)
    (hc : c.f o2 = .mapping o3)
    (hd : d.f o3 = .mapping o4) :
    spec.mixins ++ cfg.mixins = [a, b, c, d] ∧
    applyMixins (initialOptions spec) (spec.mixins ++ cfg.mixins) = .ok o4 := by
  rw [hspec, hcfg]
  refine ⟨rfl, ?_⟩
  simp only [List.cons_append, List.nil_append, applyMixins, applyMixinsGo,
    ha, hb, hc, hd]

/-- Witness for C4: four concrete tagging mixins run in the order
`a, b, c, d`, their tags accumulating left to right. -/
theorem mixin_fold_order_witness :
    specC4.mixins ++ cfgC4.mixins =
      [tagMixin "a", tagMixin "b", tagMixin "c", tagMixin "d"] ∧
    applyMixins (initialOptions specC4) (specC4.mixins ++ cfgC4.mixins) =
      .ok (oC4 ["a", "b", "c", "d"]) :=
  mixin_fold_order specC4 cfgC4 (tagMixin "a") (tagMixin "b") (tagMixin "c")
    (tagMixin "d") (oC4 ["a"]) (oC4 ["a", "b"]) (oC4 ["a", "b", "c"])
    (oC4 ["a", "b", "c", "d"]) rfl rfl rfl rfl rfl rfl

/-- C8: if the mixin `m` of the pipeline (reached after the mixins before
it returned mappings) returns a non-mapping value — `undefined`, a
primitive, or an array — construction aborts with the mixin-contract
violation; its message names the offending mixin when its function name is
derivable and is generic otherwise, and always carries the endpoint's
name.  A mixin returning a modified mapping is accepted: when the whole
fold succeeds with `o`, the final merged options of the construction are
exactly `o`, its fields visible. -/
theorem mixin_contract
    (cfg : AbstractFactoryConfig) (spec : PubSpec) (w : World) (fid : Nat)
    (pre : List Mixin) (m : Mixin) (post : List Mixin) (mid : Options)
    (hs : (cfg.schemaFactory.isSome && spec.schema.isNone) = false)
    (hsplit : spec.mixins ++ cfg.mixins = pre ++ m :: post)
    (hpre : applyMixinsGo spec.name (initialOptions spec) pre = .ok mid) :
    (∀ v : JsValue, m.f mid = .notMapping v →
      construct cfg spec w fid =
        (.error (.mixinViolation (mixinErrMsg spec.name m.derivedName)),
         ⟨w, []⟩)) ∧
    (∀ fn n, mixinErrMsg n (some fn) =
      "Error in " ++ n ++ " publication: " ++
        ("The function " ++ apos ++ fn ++ apos) ++
        " didn" ++ apos ++ "t return the options object.") ∧
    (∀ n, mixinErrMsg n none =
      "Error in " ++ n ++ " publication: " ++ "One of the mixins" ++
        " didn" ++ apos ++ "t return the options object.") ∧
    (∀ o : Options,
      applyMixins (initialOptions spec) (spec.mixins ++ cfg.mixins) = .ok o →
      List.lookup o.name
        (getW w (resolveConnection o.connection cfg.connection)) = none →
      constructOptionsOf (construct cfg spec w fid) = some o) := by
  refine ⟨fun v hm => ?_, fun _ _ => rfl, fun _ => rfl, fun o ho hdup => ?_⟩
  · have habort : applyMixins (initialOptions spec) (spec.mixins ++ cfg.mixins) =
        .error (.mixinViolation (mixinErrMsg spec.name m.derivedName)) := by
      rw [applyMixins, hsplit]
      exact applyMixinsGo_abort spec.name pre m post _ mid v hpre hm
    unfold construct
    rw [hs, habort]
    simp
  · rw [construct_success_eq cfg spec w fid o hs ho hdup]
    rfl

/-- Witness for C8: the anonymous mixin returning `undefined` aborts the
construction of endpoint `"p"` with the generic message. -/
theorem mixin_contract_witness :
    construct cfgDefault specC8 [] 0 =
      (.error (.mixinViolation (mixinErrMsg "p" none)), ⟨[], []⟩) :=
  (mixin_contract cfgDefault specC8 [] 0 [] badMixin []
    (initialOptions specC8) rfl rfl rfl).1 .vUndefined rfl

/-- C3 counterexample: the claim says a second construction under an
already-registered name always fails with the duplicate-publication error,
immediately, before any other construction-time work.  Concretely: `"a"`
is already registered on the target connection, yet the second
construction of `"a"` fails with the mixin-contract violation instead —
the mixin pipeline (construction-time work) runs before the duplicate
check ever happens (lines 27-29 precede lines 38-40). -/
theorem duplicate_check_not_first :
    constructErrOf (construct cfgDefault
      { specMin with mixins := [badMixin] }
      [(Meteor, [("a", 7)])] 1) =
      some (.mixinViolation (mixinErrMsg "a" none)) := rfl

/-- C3 amended: constructing a second endpoint under an already-registered
name fails with the duplicate-publication error carrying that name, the
registry world is left unchanged (the first handler stays registered), and
the schema factory has not been invoked — the failure precedes validator
resolution and registration — provided the argument checks pass and the
mixin pipeline completes while preserving the name; it does not precede
the argument checks or the mixin fold. -/
theorem duplicate_name_guard
    (cfg : AbstractFactoryConfig) (spec : PubSpec) (w : World) (fid : Nat)
    (opts : Options) (hid : Nat)
    (hs : (cfg.schemaFactory.isSome && spec.schema.isNone) = false)
    (hm : applyMixins (initialOptions spec) (spec.mixins ++ cfg.mixins) = .ok opts)
    (hname : opts.name = spec.name)
    (hdup : List.lookup spec.name
      (getW w (resolveConnection opts.connection cfg.connection)) = some hid) :
    construct cfg spec w fid =
      (.error (.duplicatePublication spec.name), ⟨w, []⟩) := by
  unfold construct
  rw [hs, hm]
  simp only [Bool.false_eq_true, if_false, hname]
  rw [hdup]
  simp

/-- Witness for C3 (amended): with `"a"` registered under handler id `7`,
re-constructing `"a"` fails with the duplicate error, the world keeps the
first handler, and the schema-factory log is empty. -/
theorem duplicate_name_guard_witness :
    construct cfgDefault specMin [(Meteor, [("a", 7)])] 1 =
      (.error (.duplicatePublication "a"), ⟨[(Meteor, [("a", 7)])], []⟩) :=
  duplicate_name_guard cfgDefault specMin [(Meteor, [("a", 7)])] 1
    (initialOptions specMin) 7 rfl rfl rfl rfl

/-- C5 counterexample: the claim says that for every construction where
both a `validate` override and a schema are supplied, the resolved
validator is the explicit function and `schemaFactory` is never invoked.
But lines 42-43 read the post-mixin `options.validate`: here both
`validate` and `schema` are supplied, yet the single mixin — returning a
plain mapping without the `validate` field, which passes line 90's guard —
makes the construction resolve the schema-based validator and invoke
`schemaFactory` once. -/
theorem validate_override_not_binding :
    specC5x.validate = some valNoop ∧
    specC5x.schema = some ⟨5⟩ ∧
    (construct cfgSF specC5x [] 0).2.sfCalls = [some ⟨5⟩] ∧
    constructValidatorOf (construct cfgSF specC5x [] 0) =
      some (.fromSchema (sfTrivial (some ⟨5⟩))) :=
  ⟨rfl, rfl, rfl, rfl⟩

/-- C5 amended: validator precedence is decided on the post-mixin merged
options' `validate` field, so it holds as claimed for every construction
whose mixin pipeline leaves that field unchanged (in particular whenever
no mixin touches it) and that reaches validator resolution — if a
`validate` override is supplied (whether or not a schema also is), the
resolved validator is exactly that explicit function and `schemaFactory`
is never invoked (the invocation log is empty); if no override is supplied
and a `schemaFactory` exists, `schemaFactory` is invoked exactly once, at
construction time, with the spec's schema, and each call of the resolved
validator invokes the produced object's `validate(document)`; with
neither, the validator is the no-op accepting any arguments. -/
theorem validator_resolution_precedence
    (cfg : AbstractFactoryConfig) (spec : PubSpec) (w : World) (fid : Nat)
    (opts : Options)
    (hs : (cfg.schemaFactory.isSome && spec.schema.isNone) = false)
    (hm : applyMixins (initialOptions spec) (spec.mixins ++ cfg.mixins) = .ok opts)
    (hdup : List.lookup opts.name
      (getW w (resolveConnection opts.connection cfg.connection)) = none)
    (hpres : opts.validate = spec.validate) :
    (∀ v, spec.validate = some v →
      constructValidatorOf (construct cfg spec w fid) = some (.explicitFn v) ∧
      (construct cfg spec w fid).2.sfCalls = []) ∧
    (∀ sf, spec.validate = none → cfg.schemaFactory = some sf →
      constructValidatorOf (construct cfg spec w fid) =
        some (.fromSchema (sf spec.schema)) ∧
      (construct cfg spec w fid).2.sfCalls = [spec.schema] ∧
      (∀ args, ResolvedValidator.call (.fromSchema (sf spec.schema)) args =
        (sf spec.schema).validate (docArg args))) ∧
    (spec.validate = none → cfg.schemaFactory = none →
      constructValidatorOf (construct cfg spec w fid) = some .noop ∧
      (∀ args, ResolvedValidator.call .noop args = .ok ())) := by
  rw [construct_success_eq cfg spec w fid opts hs hm hdup]
  refine ⟨fun v hv => ?_, fun sf hv hsf => ?_, fun hv hsf => ?_⟩
  · constructor <;>
      simp [constructValidatorOf, constructOutcome, resolveValidator, hpres, hv]
  · refine ⟨?_, ?_, fun args => rfl⟩ <;>
      simp [constructValidatorOf, constructOutcome, resolveValidator,
        hpres, hv, hsf]
  · exact ⟨by simp [constructValidatorOf, constructOutcome, resolveValidator,
      hpres, hv, hsf], fun args => rfl⟩

/-- Witness for C5: with a schema factory and no override, the resolved
validator wraps the factory's product and the invocation log holds the one
construction-time call with the spec's schema. -/
theorem validator_resolution_precedence_witness :
    constructValidatorOf (construct cfgSF specSchema [] 0) =
      some (.fromSchema (sfTrivial specSchema.schema)) ∧
    (construct cfgSF specSchema [] 0).2.sfCalls = [specSchema.schema] := by
  have h := (validator_resolution_precedence cfgSF specSchema [] 0
    (initialOptions specSchema) rfl rfl rfl rfl).2.1 sfTrivial rfl rfl
  exact ⟨h.1, h.2.1⟩

/-- C6 counterexample: the claim says an absent schema is accepted whenever
a `validate` override is given.  Concretely: with a schema factory
configured and an explicit `validate` override supplied, constructing with
no schema still fails the shape check — `isRequiredSchema` (line 15)
requires the schema whenever `schemaFactory` exists, regardless of
`validate`. -/
theorem schema_required_despite_validate :
    constructErrOf (construct cfgSF specC6 [] 0) =
      some (.checkFailure "schema") := rfl

/-- C6 amended: endpoint construction requires the schema field to be
present exactly when the abstract factory has a schema-construction
strategy — irrespective of any `validate` override: with a schema factory
and no schema the construction fails the schema shape check (even when a
`validate` override is supplied, as the hypothesis-free first conjunct
shows), and without a schema factory no construction ever fails that
check. -/
theorem schema_requirement
    (cfg : AbstractFactoryConfig) (spec : PubSpec) (w : World) (fid : Nat) :
    (cfg.schemaFactory.isSome = true → spec.schema = none →
      construct cfg spec w fid = (.error (.checkFailure "schema"), ⟨w, []⟩)) ∧
    (cfg.schemaFactory = none →
      constructErrOf (construct cfg spec w fid) ≠ some (.checkFailure "schema")) := by
  constructor
  · intro h1 h2
    unfold construct
    simp [h1, h2]
  · intro h
    unfold construct
    rw [h]
    simp only [Option.isSome_none, Bool.false_and, Bool.false_eq_true,
      if_false]
    split
    · next e hM =>
      simp only [constructErrOf, ne_eq, Option.some.injEq]
      intro he
      subst he
      rw [applyMixins] at hM
      exact applyMixinsGo_ne_check _ _ _ _ hM
    · next opts hM =>
      split
      · simp [constructErrOf]
      · split
        · simp [constructErrOf]
        · simp [constructErrOf]

/-- Witness for C6 (amended): a configured schema factory plus an absent
schema makes construction fail the schema check even though a `validate`
override is supplied. -/
theorem schema_requirement_witness :
    construct cfgSF specC6 [] 0 =
      (.error (.checkFailure "schema"), ⟨[], []⟩) :=
  (schema_requirement cfgSF specC6 [] 0).1 rfl rfl

/-- C7 counterexample: the claim says the effective target registry is the
endpoint-level override whenever that override is distinct from the
abstract factory's default.  Concretely: the abstract default is
connection `1` and the endpoint explicitly overrides with the global
`Meteor` — distinct from the default — yet the constructed handler is
registered with connection `1`, not with `Meteor`: line 33 compares the
merged connection against the global `Meteor` sentinel, so an explicit
`Meteor` override is indistinguishable from no override at all. -/
theorem meteor_override_not_target :
    constructTargetOf (construct cfgR1 specMeteorOverride [] 0) = some 1 ∧
    specMeteorOverride.connection = some Meteor ∧
    some Meteor ≠ some (1 : Conn) := by
  refine ⟨rfl, rfl, by decide⟩

/-- C7 amended: the effective target registry is the post-mixin options
connection whenever that connection differs from the global `Meteor`
sentinel, and the abstract factory's default otherwise — an endpoint-level
override equal to `Meteor` is treated as no override even when the
abstract default differs from `Meteor`.  The duplicate check reads, and
registration writes, exactly that resolved registry. -/
theorem connection_resolution
    (cfg : AbstractFactoryConfig) (spec : PubSpec) (w : World) (fid : Nat)
    (opts : Options)
    (hs : (cfg.schemaFactory.isSome && spec.schema.isNone) = false)
    (hm : applyMixins (initialOptions spec) (spec.mixins ++ cfg.mixins) = .ok opts)
    (hdup : List.lookup opts.name
      (getW w (resolveConnection opts.connection cfg.connection)) = none) :
    constructTargetOf (construct cfg spec w fid) =
      some (resolveConnection opts.connection cfg.connection) ∧
    (construct cfg spec w fid).2.world =
      setW w (resolveConnection opts.connection cfg.connection)
        (getW w (resolveConnection opts.connection cfg.connection) ++
          [(opts.name, fid)]) ∧
    (opts.connection ≠ Meteor →
      resolveConnection opts.connection cfg.connection = opts.connection) ∧
    (opts.connection = Meteor →
      resolveConnection opts.connection cfg.connection = cfg.connection) := by
  rw [construct_success_eq cfg spec w fid opts hs hm hdup]
  refine ⟨rfl, rfl, fun h => ?_, fun h => ?_⟩
  · simp [resolveConnection, h]
  · simp [resolveConnection, h]

/-- Witness for C7 (amended): abstract default `2`, endpoint override `3`
(distinct from `Meteor`): the handler is registered with `3`. -/
theorem connection_resolution_witness :
    constructTargetOf (construct cfgC7 specC7 [] 0) = some 3 :=
  (connection_resolution cfgC7 specC7 [] 0 (initialOptions specC7)
    rfl rfl rfl).1

/-- C9: the schema is excluded from the merged options mixins transform —
the initial merged options are identical for any two schema values — and
every `schemaFactory` invocation a construction performs receives exactly
the schema supplied in the original endpoint spec, whatever the mixin
pipeline does to the options mapping. -/
theorem schema_frame
    (cfg : AbstractFactoryConfig) (spec : PubSpec) (s1 s2 : Option Schema)
    (w : World) (fid : Nat) (x : Option Schema) :
    initialOptions { spec with schema := s1 } =
      initialOptions { spec with schema := s2 } ∧
    (x ∈ (construct cfg spec w fid).2.sfCalls → x = spec.schema) := by
  refine ⟨rfl, ?_⟩
  intro hx
  simp only [construct] at hx
  split at hx
  · simp at hx
  · split at hx
    · simp at hx
    · split at hx
      · simp at hx
      · split at hx <;>
        · simp only [resolveValidator] at hx
          split at hx
          · simp at hx
          · split at hx
            · simp at hx
              exact hx
            · simp at hx

/-- Witness for C9: a construction that does invoke the schema factory
does so with the original spec's schema. -/
theorem schema_frame_witness :
    initialOptions { specSchema with schema := some ⟨1⟩ } =
      initialOptions { specSchema with schema := some ⟨2⟩ } ∧
    (some (⟨1⟩ : Schema) : Option Schema) = specSchema.schema := by
  have h := schema_frame cfgSF specSchema (some ⟨1⟩) (some ⟨2⟩) [] 0
    (some ⟨1⟩)
  exact ⟨h.1, h.2 (by decide)⟩

end PublicationFactory
